import Mathlib

/-!
Verification of the rolling log writer (`writer.rolling.go`, package `logpher`).

The development shallowly embeds the writer.  Filesystem calls
(`os.File.WriteString`, `os.File.Close`, `os.Rename`, `openFile`, `os.Remove`,
`os.Stat`, `filepath.Walk`) are external effects; each call site receives the
outcome of its call from an explicit event value, so a theorem quantifying over
events covers every pattern of filesystem success and failure.  Two models are
used, matching the two independent halves of the code:

* a writer-lifecycle model (`rotate`, `write`, `close`, `newRollingWriter`)
  tracking the writer fields (`closed`, file handle validity, `bytesWritten`,
  `maxSize`) together with the on-disk size of the live file;
* a retention model (`deleteOld`) over the list of paths yielded by the
  directory walk, with a character-level embedding of the archive-name test
  (literal path-prefix match plus RFC 3339 parse of the text after the last
  dot, mirroring Go's `strings.HasPrefix`, `strings.Split` and
  `time.Parse(time.RFC3339, _)`).
-/

namespace Logpher

/-! ## Character-level string helpers (Go `strings` / `time` behaviour) -/

/-- Go `strings.HasPrefix` on explicit character lists. -/
def listStartsWith : List Char → List Char → Bool
  | _, [] => true
  | [], _ :: _ => false
  | c :: cs, p :: ps => c == p && listStartsWith cs ps

/-- Go `strings.Split(s, ".")`: the groups of characters between the dots.
`splitOnDot [] = [[]]`, matching `strings.Split("", ".") = [""]`. -/
def splitOnDot (cs : List Char) : List (List Char) :=
  cs.foldr
    (fun c acc =>
      match acc with
      | [] => [[c]]
      | g :: gs => if c == '.' then [] :: g :: gs else (c :: g) :: gs)
    [[]]

/-- The text after the last `.` of a path, as Go's
`split := strings.Split(path, "."); split[len(split)-1]` computes it.
When the path has no dot this is the whole path. -/
def lastDotSeg (s : String) : List Char :=
  (splitOnDot s.toList).getLastD []

/-- Numeric value of a decimal digit character. -/
def digitVal (c : Char) : Nat := c.toNat - '0'.toNat

/-- Two-digit decimal field, as Go's `parseUint` reads fixed-width fields. -/
def twoDigits (a b : Char) : Nat := 10 * digitVal a + digitVal b

/-- Gregorian leap-year test, as Go `time.isLeap`. -/
def isLeapYear (y : Nat) : Bool := y % 4 == 0 && (y % 100 != 0 || y % 400 == 0)

/-- Days in a month, as Go `time.daysIn`. -/
def daysIn (month year : Nat) : Nat :=
  if month == 2 then (if isLeapYear year then 29 else 28)
  else if month == 4 || month == 6 || month == 9 || month == 11 then 30
  else 31

/-- Go's RFC 3339 fractional-second rule: a dot followed by at least one
digit consumes the dot and the maximal run of digits; otherwise nothing is
consumed. -/
def skipFractionDigits (l : List Char) : List Char :=
  match l with
  | '.' :: c :: rest => if c.isDigit then rest.dropWhile Char.isDigit else l
  | _ => l

/-- The RFC 3339 time-zone field: `Z` or a signed two-field offset with
hour at most 23 and minute at most 59, as Go `time.parseRFC3339` checks it. -/
def zoneValid : List Char → Bool
  | ['Z'] => true
  | [sg, a, b, colon, c, d] =>
      (sg == '+' || sg == '-') && colon == ':'
        && a.isDigit && b.isDigit && c.isDigit && d.isDigit
        && decide (twoDigits a b ≤ 23) && decide (twoDigits c d ≤ 59)
  | _ => false

/-- Whether Go `time.Parse(time.RFC3339, s)` succeeds on `s`:
`yyyy-mm-ddThh:mm:ss`, optional fractional seconds, then a valid zone, with
all calendar fields range-checked (day against the month's length). -/
def rfc3339Valid (cs : List Char) : Bool :=
  match cs with
  | y1 :: y2 :: y3 :: y4 :: sep1 :: m1 :: m2 :: sep2 :: d1 :: d2 :: sepT ::
      h1 :: h2 :: sep3 :: n1 :: n2 :: sep4 :: c1 :: c2 :: rest =>
      y1.isDigit && y2.isDigit && y3.isDigit && y4.isDigit
        && sep1 == '-' && sep2 == '-' && sepT == 'T' && sep3 == ':' && sep4 == ':'
        && m1.isDigit && m2.isDigit && d1.isDigit && d2.isDigit
        && h1.isDigit && h2.isDigit && n1.isDigit && n2.isDigit
        && c1.isDigit && c2.isDigit
        && decide (1 ≤ twoDigits m1 m2) && decide (twoDigits m1 m2 ≤ 12)
        && decide (1 ≤ twoDigits d1 d2)
        && decide (twoDigits d1 d2 ≤
            daysIn (twoDigits m1 m2)
              (1000 * digitVal y1 + 100 * digitVal y2 + 10 * digitVal y3 + digitVal y4))
        && decide (twoDigits h1 h2 ≤ 23)
        && decide (twoDigits n1 n2 ≤ 59)
        && decide (twoDigits c1 c2 ≤ 59)
        && zoneValid (skipFractionDigits rest)
  | _ => false

/-! ## Retention scanner (`deleteOld`) -/

/-- The walk callback's test for one visited path: literal path-prefix match
against the live file name, then an RFC 3339 parse of the text after the
last dot (`strings.HasPrefix(path, r.fileName)` and
`time.Parse(time.RFC3339, split[len(split)-1])`). -/
def isArchiveOf (fileName path : String) : Bool :=
  listStartsWith path.toList fileName.toList && rfc3339Valid (lastDotSeg path)

/-- The `logFiles` slice `deleteOld` accumulates: the walked paths passing
the archive test, in discovery order. -/
def scanArchives (fileName : String) (entries : List String) : List String :=
  entries.filter (isArchiveOf fileName)

/-- Outcome of a `deleteOld` call. `walkFail` is a non-nil `filepath.Walk`
error returned before the loop; `removeFail` is a non-nil `os.Remove` error
returned from inside the loop; `panicked` marks the out-of-range index Go
would hit popping an empty slice (reachable only for negative `maxCount`). -/
inductive DelRes where
  | ok
  | walkFail
  | removeFail
  | panicked
deriving DecidableEq

/-- The trimming loop of `deleteOld` (`for len(logFiles) > r.maxCount`):
pops the front path and deletes its file while the slice is longer than
`maxCount`.  `removeOk p` is whether `os.Remove p` succeeds.  Returns the
paths deleted, in deletion order, and how the loop ended. -/
def trim (removeOk : String → Bool) (maxCount : Int) : List String → List String × DelRes
  | [] => if maxCount < 0 then ([], DelRes.panicked) else ([], DelRes.ok)
  | p :: rest =>
      if maxCount < ((p :: rest).length : Int) then
        if removeOk p then
          let out := trim removeOk maxCount rest
          (p :: out.1, out.2)
        else ([], DelRes.removeFail)
      else ([], DelRes.ok)

/-- One directory walk: the paths `filepath.Walk` hands to the callback, in
discovery order, and whether the walk itself returns a non-nil error. -/
structure WalkEv where
  entries : List String
  walkErr : Bool

/-- `deleteOld`: walk the directory collecting the archive list, return any
walk error before deleting anything, then run the trimming loop.  Returns
the deleted paths in order together with the call's outcome. -/
def deleteOld (fileName : String) (maxCount : Int) (removeOk : String → Bool)
    (w : WalkEv) : List String × DelRes :=
  if w.walkErr then ([], DelRes.walkFail)
  else trim removeOk maxCount (scanArchives fileName w.entries)

/-! ## Writer lifecycle (`rotate`, `write`, `close`, `newRollingWriter`)

The lifecycle model tracks the `rollingWriter` fields a claim can observe
(`closed`, whether `r.file` is an open usable handle, `bytesWritten`,
`maxSize`) together with the size of the file currently on disk at the live
path (`none` when no file exists there).  `fileName` and `maxCount` feed only
`deleteOld`, which never touches the writer fields, so in this model a
`deleteOld` call is recorded in the call log and abstracted by its
success flag.  A failed `WriteString` follows the `io.Writer` contract: it
may have appended a partial count to the file before erroring, and the code
discards that count. -/

structure WriterSt where
  closed : Bool
  fileOk : Bool
  bytesWritten : Int
  maxSize : Int
  liveSize : Option Int
deriving DecidableEq

/-- Outcomes of the three filesystem calls inside one `rotate` call:
`r.file.Close()`, `os.Rename(...)`, `openFile(r.fileName)`. -/
structure RotateEv where
  closeOk : Bool
  renameOk : Bool
  openOk : Bool
deriving DecidableEq

/-- `rotate`: close the handle; on success rename the live file to the
timestamped archive name; on success zero `bytesWritten` and open a fresh
live file.  The first failing step returns its error (`false`) with the
later steps not performed; note `r.bytesWritten = 0` is executed before the
reopen, so a failed reopen still leaves `bytesWritten` zeroed. -/
def rotate (ev : RotateEv) (s : WriterSt) : WriterSt × Bool :=
  if ev.closeOk = false then (s, false)
  else if ev.renameOk = false then ({ s with fileOk := false }, false)
  else if ev.openOk = false then
    ({ s with fileOk := false, bytesWritten := 0, liveSize := none }, false)
  else ({ s with fileOk := true, bytesWritten := 0, liveSize := some 0 }, true)

/-- Outcome of the `r.file.WriteString` call of one `write`: the count the
call returns — the number of bytes it actually appended to the file — and
whether it succeeds.  On success the count is the full byte length of
`formatStandard(logger, level, line) + "\n"`; on failure it may be any
partial count that reached the file before the error (`io.Writer`
contract), and the code discards it.  An append on a closed or nil handle
always fails having written nothing, which the model enforces at the call
site. -/
structure AppendEv where
  len : Nat
  ok : Bool
deriving DecidableEq

/-- All external outcomes one `write` call can consume. -/
structure WriteEv where
  app : AppendEv
  rot : RotateEv
  delOk : Bool
deriving DecidableEq

/-- What one `write` call did: the byte count added to `bytesWritten`
(zero when the append failed, since the code discards the count), number
of `rotate` invocations, whether an invoked rotation succeeded, and number
of `deleteOld` invocations. -/
structure WriteLog where
  appended : Nat
  rotations : Nat
  rotateOk : Bool
  deleteRuns : Nat
deriving DecidableEq

/-- `write`: under the lock, return at once if `closed`; append the line —
on failure report and return with `bytesWritten` untouched, even though the
partial count the call returned did reach the live file when the handle was
open; on success add the returned count to `bytesWritten`; when
`bytesWritten` has reached `maxSize` call `rotate` once and then
`deleteOld` once, reporting but swallowing either failure. -/
def write (ev : WriteEv) (s : WriterSt) : WriterSt × WriteLog :=
  if s.closed then (s, ⟨0, 0, false, 0⟩)
  else if (ev.app.ok && s.fileOk) = false then
    (if s.fileOk then
        { s with liveSize := s.liveSize.map (fun z => z + ev.app.len) }
      else s,
      ⟨0, 0, false, 0⟩)
  else
    let s1 : WriterSt :=
      { s with bytesWritten := s.bytesWritten + ev.app.len,
               liveSize := s.liveSize.map (fun z => z + ev.app.len) }
    if s1.maxSize ≤ s1.bytesWritten then
      let r := rotate ev.rot s1
      (r.1, ⟨ev.app.len, 1, r.2, 1⟩)
    else (s1, ⟨ev.app.len, 0, false, 0⟩)

/-- `close`: close the handle ignoring any error, set the terminal flag. -/
def close (s : WriterSt) : WriterSt :=
  { s with fileOk := false, closed := true }

/-- A sequence of `write` calls, threaded through the writer state. -/
def runWrites (evs : List WriteEv) (s : WriterSt) : WriterSt :=
  evs.foldl (fun st e => (write e st).1) s

/-- The size-accounting invariant: whenever a file exists at the live path,
its on-disk size equals `bytesWritten`. -/
def sizeInv (s : WriterSt) : Prop :=
  ∀ z, s.liveSize = some z → s.bytesWritten = z

/-- A `WriteString` call that errors after depositing a 3-byte partial
count in the live file (for instance the disk filling up mid-write). -/
def partialFailEv : WriteEv := ⟨⟨3, false⟩, ⟨true, true, true⟩, true⟩

/-- An ordinary successful 5-byte write staying below the threshold. -/
def okWriteEv : WriteEv := ⟨⟨5, true⟩, ⟨true, true, true⟩, true⟩

/-- A fresh open writer over an empty live file, threshold 100 bytes. -/
def cexStart : WriterSt := ⟨false, true, 0, 100, some 0⟩

/-- Modelled from the spec: the constructor's size conversion, "maximum size
in megabytes (converted internally to bytes by multiplying by 1,048,576)".
The constant `megabyte` itself is declared outside `writer.rolling.go`. -/
def megabyte : Int := 1048576

/-- Outcomes of the external calls `newRollingWriter` can make: the
`os.Stat` result (`none` is an error other than not-exists; `some none` is
not-exists; `some (some sz)` is a file of size `sz`), the `openFile`
outcome, the rotation outcomes, and the `deleteOld` outcome. -/
structure InitEv where
  stat : Option (Option Int)
  openOk : Bool
  rot : RotateEv
  delOk : Bool

/-- What a successful construction did: `rotate` invocations, `deleteOld`
invocations, and lines appended (the constructor never appends). -/
structure InitLog where
  rotations : Nat
  deleteRuns : Nat
  appends : Nat
deriving DecidableEq

/-- `newRollingWriter`: stat the live path; on a not-exists result create
the file and run `deleteOld`; on an existing file open it for appending,
record its size as `bytesWritten`, rotate first when that size already
meets `maxSize`, and run `deleteOld`.  Every error on these paths reaches
`panic`/`panicOnError`, modelled as `none`: no writer is returned. -/
def newRollingWriter (maxSizeMB : Int) (_maxCount : Int) (ev : InitEv) :
    Option (WriterSt × InitLog) :=
  let maxSize := maxSizeMB * megabyte
  match ev.stat with
  | none => none
  | some none =>
      if ev.openOk = false then none
      else if ev.delOk = false then none
      else some (⟨false, true, 0, maxSize, some 0⟩, ⟨0, 1, 0⟩)
  | some (some sz) =>
      if ev.openOk = false then none
      else
        let s : WriterSt := ⟨false, true, sz, maxSize, some sz⟩
        if maxSize ≤ sz then
          let r := rotate ev.rot s
          if r.2 = false then none
          else if ev.delOk = false then none
          else some (r.1, ⟨1, 1, 0⟩)
        else if ev.delOk = false then none
        else some (s, ⟨0, 1, 0⟩)

example : rfc3339Valid "2024-01-01T00:00:00Z".toList = true := by decide

example : rfc3339Valid "2024-02-30T00:00:00Z".toList = false := by decide

example : rfc3339Valid "2024-06-09T12:34:56.789+05:30".toList = true := by decide

example : rfc3339Valid "app".toList = false := by decide

example : lastDotSeg "/logs/app.2024-01-01T00:00:00Z" = "2024-01-01T00:00:00Z".toList := by decide

example :
    deleteOld "/logs/app" 1 (fun _ => true)
      ⟨["/logs", "/logs/app", "/logs/app.2024-01-01T00:00:00Z",
        "/logs/app.2024-01-02T00:00:00Z"], false⟩ =
      (["/logs/app.2024-01-01T00:00:00Z"], DelRes.ok) := by decide

example :
    write ⟨⟨5, true⟩, ⟨true, true, true⟩, true⟩ ⟨false, true, 6, 10, some 6⟩ =
      (⟨false, true, 0, 10, some 0⟩, ⟨5, 1, true, 1⟩) := by decide

example :
    write ⟨⟨5, true⟩, ⟨true, true, true⟩, true⟩ ⟨false, true, 0, 10, some 0⟩ =
      (⟨false, true, 5, 10, some 5⟩, ⟨5, 0, false, 0⟩) := by decide

example :
    newRollingWriter 1 3 ⟨some (some 2000000), true, ⟨true, true, true⟩, true⟩ =
      some (⟨false, true, 0, 1048576, some 0⟩, ⟨1, 1, 0⟩) := by decide

/-! ## Theorems -/

/-- C1: on an open writer whose append succeeds, a write that brings
`bytesWritten` to or past `maxSize` invokes `rotate` exactly once, and if
that rotation succeeds `bytesWritten` is 0 immediately after it; a write
that stays below the threshold invokes no rotation. -/
theorem write_crossing_threshold_rotates_once (s : WriterSt) (ev : WriteEv)
    (hcl : s.closed = false) (hap : ev.app.ok = true) (hf : s.fileOk = true) :
    (s.maxSize ≤ s.bytesWritten + ev.app.len →
        (write ev s).2.rotations = 1 ∧
          ((write ev s).2.rotateOk = true → (write ev s).1.bytesWritten = 0)) ∧
      (s.bytesWritten + ev.app.len < s.maxSize → (write ev s).2.rotations = 0) := by
  obtain ⟨scl, sfk, bw, ms, ls⟩ := s
  obtain ⟨⟨alen, aok⟩, ⟨cok, rok, ook⟩, dok⟩ := ev
  simp only at hcl hap hf
  subst hcl; subst hap; subst hf
  constructor
  · intro hth
    simp only at hth
    simp only [write, hth, if_true, if_pos, Bool.and_self, if_neg, reduceIte]
    refine ⟨rfl, ?_⟩
    cases cok <;> cases rok <;> cases ook <;> simp [rotate]
  · intro hth
    simp only at hth
    simp only [write, Bool.and_self, reduceIte, if_neg (not_le.mpr hth)]
    rfl

/-- C1 witness: a concrete crossing write on an open writer rotates once
and zeroes the count. -/
theorem write_crossing_threshold_rotates_once_app :
    ((10 : Int) ≤ 6 + ((5 : Nat) : Int) →
        (write ⟨⟨5, true⟩, ⟨true, true, true⟩, true⟩ ⟨false, true, 6, 10, some 6⟩).2.rotations = 1 ∧
          ((write ⟨⟨5, true⟩, ⟨true, true, true⟩, true⟩ ⟨false, true, 6, 10, some 6⟩).2.rotateOk = true →
            (write ⟨⟨5, true⟩, ⟨true, true, true⟩, true⟩ ⟨false, true, 6, 10, some 6⟩).1.bytesWritten = 0)) ∧
      (6 + ((5 : Nat) : Int) < (10 : Int) →
        (write ⟨⟨5, true⟩, ⟨true, true, true⟩, true⟩ ⟨false, true, 6, 10, some 6⟩).2.rotations = 0) :=
  write_crossing_threshold_rotates_once ⟨false, true, 6, 10, some 6⟩
    ⟨⟨5, true⟩, ⟨true, true, true⟩, true⟩ rfl rfl rfl

/-- C6: once `close` has run, any subsequent `write` returns at once with
the writer state (every field) unchanged and performs no append, no
rotation, and no retention scan. -/
theorem write_after_close_noop (s : WriterSt) (ev : WriteEv) :
    write ev (close s) = (close s, ⟨0, 0, false, 0⟩) := by
  simp [write, close]

/-- C7: `rotate` runs close, rename, reset, reopen in order; the first
failing step aborts the remaining ones and the error is returned, so a
close or rename failure leaves `bytesWritten` unreset and opens no new
live file, while full success leaves a fresh empty live file and
`bytesWritten = 0`. -/
theorem rotate_step_order (s : WriterSt) (ev : RotateEv) :
    (ev.closeOk = false → rotate ev s = (s, false)) ∧
      (ev.closeOk = true → ev.renameOk = false →
        rotate ev s = ({ s with fileOk := false }, false)) ∧
      (ev.closeOk = true → ev.renameOk = true → ev.openOk = false →
        rotate ev s = ({ s with fileOk := false, bytesWritten := 0, liveSize := none }, false)) ∧
      (ev.closeOk = true → ev.renameOk = true → ev.openOk = true →
        rotate ev s = ({ s with fileOk := true, bytesWritten := 0, liveSize := some 0 }, true)) := by
  obtain ⟨cok, rok, ook⟩ := ev
  refine ⟨?_, ?_, ?_, ?_⟩ <;> cases cok <;> cases rok <;> cases ook <;> simp [rotate]

/-- C7 witness: a failed rename on a concrete state aborts the reset and
the reopen and returns the error. -/
theorem rotate_step_order_app :
    rotate ⟨true, false, true⟩ ⟨false, true, 7, 10, some 7⟩ =
      ({ (⟨false, true, 7, 10, some 7⟩ : WriterSt) with fileOk := false }, false) :=
  (rotate_step_order ⟨false, true, 7, 10, some 7⟩ ⟨true, false, true⟩).2.1 rfl rfl

/-- One `write` call whose append, if it fails, deposits no bytes,
preserves the size-accounting invariant, whatever the other filesystem
outcomes of the call are. -/
theorem sizeInv_write (ev : WriteEv) (s : WriterSt)
    (hev : ev.app.ok = false → ev.app.len = 0) (h : sizeInv s) :
    sizeInv (write ev s).1 := by
  obtain ⟨scl, sfk, bw, ms, ls⟩ := s
  obtain ⟨⟨alen, aok⟩, ⟨cok, rok, ook⟩, dok⟩ := ev
  have hmap : ∀ z : Int, Option.map (fun w => w + (alen : Int)) ls = some z →
      bw + (alen : Int) = z := by
    intro z hz
    rcases ls with _ | w
    · exact Option.noConfusion hz
    · have h1 : bw = w := h w rfl
      have h2 : w + (alen : Int) = z := Option.some.inj hz
      omega
  cases scl
  case true => exact h
  case false =>
    cases aok
    case false =>
      have h0 : alen = 0 := hev rfl
      cases sfk
      case false => exact h
      case true =>
        intro z hz
        rcases ls with _ | w
        · exact Option.noConfusion hz
        · have h1 : bw = w := h w rfl
          have h2 : w + (alen : Int) = z := Option.some.inj hz
          show bw = z
          omega
    case true =>
      cases sfk
      case false => exact h
      case true =>
        intro z
        simp only [write, Bool.and_self, Bool.true_eq_false, Bool.false_eq_true, if_false]
        split
        · cases cok <;> cases rok <;> cases ook <;> intro hz <;>
            first
              | exact hmap z hz
              | exact Option.noConfusion hz
              | exact Option.some.inj hz
        · exact fun hz => hmap z hz

/-- C2 counterexample: a `WriteString` that fails after depositing a
3-byte partial count grows the live file while the code discards the
count, so after the next successful 5-byte write `bytesWritten` is 5 while
the live file holds 8 bytes — the claim fails at this concrete sequence. -/
theorem bytesWritten_mismatch_cex :
    (write okWriteEv (write partialFailEv cexStart).1).2.appended = 5 ∧
      (write okWriteEv (write partialFailEv cexStart).1).1.liveSize = some 8 ∧
      (write okWriteEv (write partialFailEv cexStart).1).1.bytesWritten = 5 ∧
      (write okWriteEv (write partialFailEv cexStart).1).1.bytesWritten ≠ (8 : Int) :=
  ⟨by decide, by decide, by decide, by decide⟩

/-- C2 (amended): over every sequence of `write` calls in which each
failed append deposited no bytes in the live file, the size-accounting
invariant is preserved: starting from any state where `bytesWritten`
equals the live file's on-disk size (as fresh and freshly-rotated writers
are), after each write — in particular after each successful one —
`bytesWritten` still equals the live file's size whenever a live file
exists on disk. -/
theorem bytesWritten_matches_live_size (evs : List WriteEv) :
    ∀ s : WriterSt, (∀ ev ∈ evs, ev.app.ok = false → ev.app.len = 0) →
      sizeInv s → sizeInv (runWrites evs s) := by
  induction evs with
  | nil => exact fun _ _ h => h
  | cons e rest ih =>
    intro s hevs h
    exact ih (write e s).1 (fun ev hev => hevs ev (List.mem_cons_of_mem e hev))
      (sizeInv_write e s (hevs e (List.mem_cons_self e rest)) h)

/-- C2 witness: two concrete successful writes, the second crossing the
threshold and rotating, keep the invariant from a fresh writer. -/
theorem bytesWritten_matches_live_size_app :
    sizeInv (runWrites
      [⟨⟨4, true⟩, ⟨true, true, true⟩, true⟩, ⟨⟨7, true⟩, ⟨true, true, true⟩, true⟩]
      ⟨false, true, 0, 10, some 0⟩) :=
  bytesWritten_matches_live_size
    [⟨⟨4, true⟩, ⟨true, true, true⟩, true⟩, ⟨⟨7, true⟩, ⟨true, true, true⟩, true⟩]
    ⟨false, true, 0, 10, some 0⟩ (by decide) (fun _ hz => Option.some.inj hz)

/-- C4: whenever construction succeeds, an existing live file at or past
the threshold means exactly one rotation ran, an existing file below the
threshold means none ran, no line was appended either way, and the
retention scanner ran exactly once. -/
theorem init_rotation_and_scan (mb mc : Int) (ev : InitEv)
    (out : WriterSt × InitLog) (h : newRollingWriter mb mc ev = some out) :
    (∀ sz, ev.stat = some (some sz) → mb * megabyte ≤ sz → out.2.rotations = 1) ∧
      (∀ sz, ev.stat = some (some sz) → sz < mb * megabyte → out.2.rotations = 0) ∧
      out.2.deleteRuns = 1 ∧ out.2.appends = 0 := by
  obtain ⟨st, ook, rot, dok⟩ := ev
  rcases st with _ | _ | sz0
  · exact Option.noConfusion h
  · cases ook
    · exact Option.noConfusion h
    · cases dok
      · exact Option.noConfusion h
      · obtain rfl : (⟨⟨false, true, 0, mb * megabyte, some 0⟩, ⟨0, 1, 0⟩⟩ :
            WriterSt × InitLog) = out := Option.some.inj h
        refine ⟨?_, ?_, rfl, rfl⟩
        · intro sz hsz
          exact absurd (Option.some.inj hsz) (by simp)
        · intro sz hsz
          exact absurd (Option.some.inj hsz) (by simp)
  · cases ook
    · exact Option.noConfusion h
    · by_cases ht : mb * megabyte ≤ sz0
      · simp only [newRollingWriter, reduceIte, if_pos ht] at h
        rcases hr : (rotate rot ⟨false, true, sz0, mb * megabyte, some sz0⟩).2 with _ | _
        · rw [hr] at h
          exact Option.noConfusion h
        · rw [hr] at h
          cases dok
          · exact Option.noConfusion h
          · obtain rfl :
                ((rotate rot ⟨false, true, sz0, mb * megabyte, some sz0⟩).1,
                  (⟨1, 1, 0⟩ : InitLog)) = out := Option.some.inj h
            refine ⟨fun _ _ _ => rfl, ?_, rfl, rfl⟩
            intro sz hsz hlt
            have h1 : sz0 = sz := Option.some.inj (Option.some.inj hsz)
            exact absurd hlt (by omega)
      · simp only [newRollingWriter, reduceIte, if_neg ht] at h
        cases dok
        · exact Option.noConfusion h
        · obtain rfl : ((⟨false, true, sz0, mb * megabyte, some sz0⟩ : WriterSt),
              (⟨0, 1, 0⟩ : InitLog)) = out := Option.some.inj h
          refine ⟨?_, fun _ _ _ => rfl, rfl, rfl⟩
          intro sz hsz hle
          have h1 : sz0 = sz := Option.some.inj (Option.some.inj hsz)
          exact absurd hle (by omega)

/-- C4 witness: over an existing 2,000,000-byte file with a 1-megabyte
threshold, a concrete successful construction rotates once, appends
nothing, and runs the retention scanner once. -/
theorem init_rotation_and_scan_app :
    (∀ sz, (⟨some (some 2000000), true, ⟨true, true, true⟩, true⟩ : InitEv).stat =
          some (some sz) → 1 * megabyte ≤ sz →
        ((⟨⟨false, true, 0, 1048576, some 0⟩, ⟨1, 1, 0⟩⟩ : WriterSt × InitLog)).2.rotations = 1) ∧
      (∀ sz, (⟨some (some 2000000), true, ⟨true, true, true⟩, true⟩ : InitEv).stat =
          some (some sz) → sz < 1 * megabyte →
        ((⟨⟨false, true, 0, 1048576, some 0⟩, ⟨1, 1, 0⟩⟩ : WriterSt × InitLog)).2.rotations = 0) ∧
      ((⟨⟨false, true, 0, 1048576, some 0⟩, ⟨1, 1, 0⟩⟩ : WriterSt × InitLog)).2.deleteRuns = 1 ∧
      ((⟨⟨false, true, 0, 1048576, some 0⟩, ⟨1, 1, 0⟩⟩ : WriterSt × InitLog)).2.appends = 0 :=
  init_rotation_and_scan 1 3 ⟨some (some 2000000), true, ⟨true, true, true⟩, true⟩
    ⟨⟨false, true, 0, 1048576, some 0⟩, ⟨1, 1, 0⟩⟩ (by decide)

/-- C9: a `deleteOld` failure during construction is fatal on every path,
file existing or not: `newRollingWriter` panics and returns no writer. -/
theorem init_deleteOld_failure_fatal (mb mc : Int) (ev : InitEv)
    (h : ev.delOk = false) :
    newRollingWriter mb mc ev = none := by
  obtain ⟨st, ook, rot, dok⟩ := ev
  simp only at h
  subst h
  rcases st with _ | _ | sz
  · rfl
  · cases ook <;> simp [newRollingWriter]
  · cases ook
    · simp [newRollingWriter]
    · simp only [newRollingWriter, reduceIte]
      rw [if_neg (by simp : ¬((true : Bool) = false))]
      split
      · split <;> rfl
      · rfl

/-- C9 witness: with an existing 0-byte file, a failing retention scan
makes a concrete construction panic. -/
theorem init_deleteOld_failure_fatal_app :
    newRollingWriter 1 3 ⟨some (some 0), true, ⟨true, true, true⟩, false⟩ = none :=
  init_deleteOld_failure_fatal 1 3 ⟨some (some 0), true, ⟨true, true, true⟩, false⟩ rfl

/-- When every deletion succeeds and `maxCount` is non-negative, the
trimming loop deletes exactly the front of the list down to `maxCount`
survivors and ends cleanly. -/
theorem trim_all_ok (removeOk : String → Bool) (mc : Int) (hmc : 0 ≤ mc)
    (files : List String) (hok : ∀ p ∈ files, removeOk p = true) :
    trim removeOk mc files = (files.take (files.length - mc.toNat), DelRes.ok) := by
  induction files with
  | nil =>
    simp only [trim, List.take_nil]
    rw [if_neg (not_lt.mpr hmc)]
  | cons p rest ih =>
    simp only [trim]
    rw [hok p (List.mem_cons_self p rest), if_pos (rfl : (true : Bool) = true)]
    split
    next hlt =>
      rw [ih (fun q hq => hok q (List.mem_cons_of_mem p hq))]
      have hco : (p :: rest).length - mc.toNat = (rest.length - mc.toNat) + 1 := by
        simp only [List.length_cons] at hlt ⊢
        omega
      rw [hco, List.take_succ_cons]
    next hlt =>
      have hco : (p :: rest).length - mc.toNat = 0 := by
        simp only [List.length_cons] at hlt ⊢
        omega
      rw [hco, List.take_zero]

/-- When a deletion fails, the trimming loop has deleted exactly the
successfully removed front segment, leaves the failing file and everything
behind it in place, and reports the error. -/
theorem trim_stops (removeOk : String → Bool) (mc : Int) (pre : List String)
    (p : String) (post : List String) (hpre : ∀ q ∈ pre, removeOk q = true)
    (hp : removeOk p = false) (hreach : mc < (post.length : Int) + 1) :
    trim removeOk mc (pre ++ p :: post) = (pre, DelRes.removeFail) := by
  induction pre with
  | nil =>
    rw [List.nil_append]
    simp only [trim]
    rw [hp]
    split
    next => rw [if_neg (by decide : ¬((false : Bool) = true))]
    next hlt =>
      exfalso
      simp only [List.length_cons] at hlt
      omega
  | cons q pre' ih =>
    rw [List.cons_append]
    simp only [trim]
    rw [hpre q (List.mem_cons_self q pre'), if_pos (rfl : (true : Bool) = true)]
    split
    next => rw [ih (fun r hr => hpre r (List.mem_cons_of_mem q hr))]
    next hlt =>
      exfalso
      simp only [List.length_cons, List.length_append] at hlt
      omega

/-- Whatever happens inside the loop, the deleted paths form an initial
segment of the scanned list. -/
theorem trim_deleted_initial (removeOk : String → Bool) (mc : Int)
    (files : List String) :
    ∃ rest, files = (trim removeOk mc files).1 ++ rest := by
  induction files with
  | nil =>
    refine ⟨[], ?_⟩
    unfold trim
    split <;> rfl
  | cons p rest ih =>
    by_cases hlt : mc < ((p :: rest).length : Int)
    · cases hok : removeOk p with
      | false =>
        refine ⟨p :: rest, ?_⟩
        simp only [trim]
        rw [if_pos hlt, hok, if_neg (by decide : ¬((false : Bool) = true))]
        rfl
      | true =>
        obtain ⟨r, hr⟩ := ih
        refine ⟨r, ?_⟩
        simp only [trim]
        rw [if_pos hlt, hok, if_pos (rfl : (true : Bool) = true)]
        exact congrArg (fun l => p :: l) hr
    · refine ⟨p :: rest, ?_⟩
      simp only [trim]
      rw [if_neg hlt]
      rfl

/-- `deleteOld` deletes only an initial segment of the discovery-ordered
archive list it scanned. -/
theorem deleteOld_deleted_initial (fileName : String) (mc : Int)
    (removeOk : String → Bool) (w : WalkEv) :
    ∃ rest, scanArchives fileName w.entries =
      (deleteOld fileName mc removeOk w).1 ++ rest := by
  obtain ⟨entries, werr⟩ := w
  cases werr
  · simp only [deleteOld, Bool.false_eq_true, if_false]
    exact trim_deleted_initial removeOk mc (scanArchives fileName entries)
  · exact ⟨scanArchives fileName entries, by simp [deleteOld]⟩

/-- C3: with a non-negative `maxCount`, a `deleteOld` whose walk and
deletions all succeed removes exactly the front of the discovery-ordered
archive list: when the scan found more than `maxCount` archives exactly
`maxCount` remain afterwards, when it found at most `maxCount` nothing is
deleted, and with `maxCount = 0` every discovered archive is deleted. -/
theorem deleteOld_trims_to_maxCount (fileName : String) (mc : Int)
    (removeOk : String → Bool) (w : WalkEv) (hmc : 0 ≤ mc)
    (hw : w.walkErr = false)
    (hok : ∀ p ∈ scanArchives fileName w.entries, removeOk p = true) :
    (deleteOld fileName mc removeOk w =
        ((scanArchives fileName w.entries).take
          ((scanArchives fileName w.entries).length - mc.toNat), DelRes.ok)) ∧
      (mc < ((scanArchives fileName w.entries).length : Int) →
        (((scanArchives fileName w.entries).length : Int) -
          ((deleteOld fileName mc removeOk w).1.length : Int)) = mc) ∧
      (((scanArchives fileName w.entries).length : Int) ≤ mc →
        (deleteOld fileName mc removeOk w).1 = []) ∧
      (mc = 0 →
        (deleteOld fileName mc removeOk w).1 = scanArchives fileName w.entries) := by
  have hd : deleteOld fileName mc removeOk w =
      ((scanArchives fileName w.entries).take
        ((scanArchives fileName w.entries).length - mc.toNat), DelRes.ok) := by
    simp only [deleteOld, hw, Bool.false_eq_true, if_false]
    exact trim_all_ok removeOk mc hmc _ hok
  refine ⟨hd, ?_, ?_, ?_⟩
  · intro hlt
    rw [hd]
    simp only [List.length_take,
      Nat.min_eq_left (Nat.sub_le (scanArchives fileName w.entries).length mc.toNat)]
    omega
  · intro hle
    rw [hd]
    have hz : (scanArchives fileName w.entries).length - mc.toNat = 0 := by omega
    simp [hz]
  · intro h0
    subst h0
    rw [hd]
    simp

/-- C3 witness: three concrete archives with `maxCount = 1` and successful
deletions: the two oldest-discovered are deleted and exactly one remains;
and the count-bound and zero-count conclusions hold there as well. -/
theorem deleteOld_trims_to_maxCount_app :
    (deleteOld "/logs/app" 1 (fun _ => true)
        ⟨["/logs", "/logs/app", "/logs/app.2024-01-01T00:00:00Z",
          "/logs/app.2024-01-02T00:00:00Z", "/logs/app.2024-01-03T00:00:00Z"], false⟩ =
      ((scanArchives "/logs/app"
          ["/logs", "/logs/app", "/logs/app.2024-01-01T00:00:00Z",
            "/logs/app.2024-01-02T00:00:00Z", "/logs/app.2024-01-03T00:00:00Z"]).take
        ((scanArchives "/logs/app"
            ["/logs", "/logs/app", "/logs/app.2024-01-01T00:00:00Z",
              "/logs/app.2024-01-02T00:00:00Z", "/logs/app.2024-01-03T00:00:00Z"]).length -
          (1 : Int).toNat), DelRes.ok)) ∧
      ((1 : Int) < ((scanArchives "/logs/app"
          ["/logs", "/logs/app", "/logs/app.2024-01-01T00:00:00Z",
            "/logs/app.2024-01-02T00:00:00Z", "/logs/app.2024-01-03T00:00:00Z"]).length : Int) →
        (((scanArchives "/logs/app"
            ["/logs", "/logs/app", "/logs/app.2024-01-01T00:00:00Z",
              "/logs/app.2024-01-02T00:00:00Z", "/logs/app.2024-01-03T00:00:00Z"]).length : Int) -
          (((deleteOld "/logs/app" 1 (fun _ => true)
              ⟨["/logs", "/logs/app", "/logs/app.2024-01-01T00:00:00Z",
                "/logs/app.2024-01-02T00:00:00Z", "/logs/app.2024-01-03T00:00:00Z"],
                false⟩).1.length : Int))) = 1) ∧
      (((scanArchives "/logs/app"
          ["/logs", "/logs/app", "/logs/app.2024-01-01T00:00:00Z",
            "/logs/app.2024-01-02T00:00:00Z", "/logs/app.2024-01-03T00:00:00Z"]).length : Int) ≤ 1 →
        (deleteOld "/logs/app" 1 (fun _ => true)
          ⟨["/logs", "/logs/app", "/logs/app.2024-01-01T00:00:00Z",
            "/logs/app.2024-01-02T00:00:00Z", "/logs/app.2024-01-03T00:00:00Z"],
            false⟩).1 = []) ∧
      ((1 : Int) = 0 →
        (deleteOld "/logs/app" 1 (fun _ => true)
          ⟨["/logs", "/logs/app", "/logs/app.2024-01-01T00:00:00Z",
            "/logs/app.2024-01-02T00:00:00Z", "/logs/app.2024-01-03T00:00:00Z"],
            false⟩).1 =
          scanArchives "/logs/app"
            ["/logs", "/logs/app", "/logs/app.2024-01-01T00:00:00Z",
              "/logs/app.2024-01-02T00:00:00Z", "/logs/app.2024-01-03T00:00:00Z"]) :=
  deleteOld_trims_to_maxCount "/logs/app" 1 (fun _ => true)
    ⟨["/logs", "/logs/app", "/logs/app.2024-01-01T00:00:00Z",
      "/logs/app.2024-01-02T00:00:00Z", "/logs/app.2024-01-03T00:00:00Z"], false⟩
    (by decide) (by decide) (by decide)

/-- C8: when the scanned archive list splits as `pre ++ p :: post` with
every deletion in `pre` succeeding, the deletion of `p` failing, and the
loop still above the bound when it reaches `p`, `deleteOld` returns the
error at once: exactly the files of `pre` are deleted (and stay deleted)
and nothing at or after `p` is deleted. -/
theorem deleteOld_stops_at_remove_error (fileName : String) (mc : Int)
    (removeOk : String → Bool) (w : WalkEv) (hw : w.walkErr = false)
    (pre : List String) (p : String) (post : List String)
    (hsplit : scanArchives fileName w.entries = pre ++ p :: post)
    (hpre : ∀ q ∈ pre, removeOk q = true) (hp : removeOk p = false)
    (hreach : mc < (post.length : Int) + 1) :
    deleteOld fileName mc removeOk w = (pre, DelRes.removeFail) := by
  simp only [deleteOld, hw, Bool.false_eq_true, if_false, hsplit]
  exact trim_stops removeOk mc pre p post hpre hp hreach

/-- C8 witness: with three concrete archives, `maxCount = 0` and the second
deletion failing, only the first archive is deleted and the error is
returned. -/
theorem deleteOld_stops_at_remove_error_app :
    deleteOld "/logs/app" 0
        (fun s => !(s == "/logs/app.2024-01-02T00:00:00Z"))
        ⟨["/logs/app.2024-01-01T00:00:00Z", "/logs/app.2024-01-02T00:00:00Z",
          "/logs/app.2024-01-03T00:00:00Z"], false⟩ =
      (["/logs/app.2024-01-01T00:00:00Z"], DelRes.removeFail) :=
  deleteOld_stops_at_remove_error "/logs/app" 0
    (fun s => !(s == "/logs/app.2024-01-02T00:00:00Z"))
    ⟨["/logs/app.2024-01-01T00:00:00Z", "/logs/app.2024-01-02T00:00:00Z",
      "/logs/app.2024-01-03T00:00:00Z"], false⟩ rfl
    ["/logs/app.2024-01-01T00:00:00Z"] "/logs/app.2024-01-02T00:00:00Z"
    ["/logs/app.2024-01-03T00:00:00Z"] (by decide) (by decide) (by decide) (by decide)

/-- C10: `deleteOld` builds the complete discovery-ordered archive list
before deleting anything — the deleted paths are always an initial segment
of the fully scanned list — and a directory-walk error makes it return
that error with no file deleted. -/
theorem deleteOld_walk_error_no_deletions (fileName : String) (mc : Int)
    (removeOk : String → Bool) (w : WalkEv) :
    (w.walkErr = true → deleteOld fileName mc removeOk w = ([], DelRes.walkFail)) ∧
      ∃ rest, scanArchives fileName w.entries =
        (deleteOld fileName mc removeOk w).1 ++ rest := by
  refine ⟨fun hw => ?_, deleteOld_deleted_initial fileName mc removeOk w⟩
  simp [deleteOld, hw]

/-- C10 witness: a concrete failing walk over one archive deletes nothing
and returns the walk error. -/
theorem deleteOld_walk_error_no_deletions_app :
    (((⟨["/logs/app.2024-01-01T00:00:00Z"], true⟩ : WalkEv).walkErr = true →
        deleteOld "/logs/app" 0 (fun _ => true)
          ⟨["/logs/app.2024-01-01T00:00:00Z"], true⟩ = ([], DelRes.walkFail))) ∧
      ∃ rest, scanArchives "/logs/app" ["/logs/app.2024-01-01T00:00:00Z"] =
        (deleteOld "/logs/app" 0 (fun _ => true)
          ⟨["/logs/app.2024-01-01T00:00:00Z"], true⟩).1 ++ rest :=
  deleteOld_walk_error_no_deletions "/logs/app" 0 (fun _ => true)
    ⟨["/logs/app.2024-01-01T00:00:00Z"], true⟩

end Logpher
